import Mathlib

/-!
Verification development for the retention-scan-and-deletion core of the
JellyfinControlCenter repository (the `Automation` component: `handleScan`,
`handleExcludeItem`, `handleExcludeAll`, `handleDelete`, `addLog`).

The TypeScript source is shallowly embedded: JS numbers used as timestamps
are modelled as `Int` (epoch milliseconds), the floating-point day division
as exact `ℚ` arithmetic, `parseInt` with its NaN behaviour as
`Option Int` (with `none` playing NaN, which compares unequal to
everything under `===`), and the external service calls of `handleDelete`
as oracle functions carried in an environment record.
-/

/-- A catalog entry as used by the Automation component: the fields of the
Jellyfin item that the scan and deletion code reads.  `DateCreated` holds
the parsed epoch-millisecond value of the item's creation timestamp
(the source calls `new Date(item.DateCreated).getTime()`). -/
structure ProviderIds where
  Tmdb : Option String := none
  Tvdb : Option String := none
deriving DecidableEq, Repr

structure JellyfinItem where
  Id : String
  «Type» : String
  Name : String
  DateCreated : Int
  SeriesId : Option String := none
  SeriesName : Option String := none
  ProviderIds : ProviderIds := {}
deriving DecidableEq, Repr

/-- A movie record of the movie acquisition manager, with the fields the
source reads: `radarrMovie.id` and `radarrMovie.tmdbId` (both JS numbers). -/
structure RadarrMovie where
  id : Int
  tmdbId : Int
deriving DecidableEq, Repr

/-- A series record of the series acquisition manager, with the fields the
source reads: `sonarrSerie.id` and `sonarrSerie.tvdbId`. -/
structure SonarrSeries where
  id : Int
  tvdbId : Int
deriving DecidableEq, Repr

/-- An episode record, with the fields the source reads:
`e.seasonNumber`, `e.hasFile`, `e.episodeFileId`. -/
structure SonarrEpisode where
  seasonNumber : Int
  hasFile : Bool
  episodeFileId : Int
deriving DecidableEq, Repr

/-- Connection settings of one acquisition manager; the source checks
`cfg?.url && cfg?.apiKey` (string truthiness, i.e. non-emptiness). -/
structure ArrSettings where
  url : String
  apiKey : String
deriving DecidableEq, Repr

structure Settings where
  radarr : Option ArrSettings := none
  sonarr : Option ArrSettings := none
deriving DecidableEq, Repr

/-- JS truthiness of `cfg?.url && cfg?.apiKey` for an optional settings
block: configured iff present with non-empty url and non-empty api key. -/
def arrConfigured : Option ArrSettings → Bool
  | none => false
  | some c => !(c.url == "") && !(c.apiKey == "")

/-- JS falsiness of an optional string (`!s`): missing or empty. -/
def falsyStr : Option String → Bool
  | none => true
  | some s => s == ""

/-- Value of a non-empty run of decimal digits. -/
def digitsVal (ds : List Char) : Nat :=
  ds.foldl (fun n c => n * 10 + (c.toNat - '0'.toNat)) 0

def jsParseIntCore (cs : List Char) : Option Nat :=
  let ds := cs.takeWhile Char.isDigit
  if ds.isEmpty then none
  else some (digitsVal ds)

/-- JS `parseInt` restricted to base 10: skip leading whitespace, optional
sign, then a leading digit run; `none` models `NaN`.  Since `NaN === x` is
false for every `x`, a `none` result matches no record below. -/
def jsParseInt (s : String) : Option Int :=
  match s.toList.dropWhile Char.isWhitespace with
  | '-' :: rest => (jsParseIntCore rest).map (fun n => -(n : Int))
  | '+' :: rest => (jsParseIntCore rest).map (fun n => (n : Int))
  | cs => (jsParseIntCore cs).map (fun n => (n : Int))

/-- The JS comparison `n === parseInt(s)` for a number field `n` of a
fetched record: true iff the parse produced a number equal to `n`. -/
def parseMatch (s : String) (n : Int) : Bool :=
  match jsParseInt s with
  | some v => v == n
  | none => false

/-- First contiguous digit run of a name, the source's
`item.Name.match(/\d+/)`. -/
def firstDigitRun : List Char → Option (List Char)
  | [] => none
  | c :: cs => if c.isDigit then some (c :: cs.takeWhile Char.isDigit) else firstDigitRun cs

/-- JS `[...new Set(xs)]`: deduplicate keeping first occurrences,
preserving insertion order (JS `Set` iteration order). -/
def jsSetDedup {α : Type} [DecidableEq α] : List α → List α
  | [] => []
  | a :: as => a :: (jsSetDedup as).filter (fun x => x ≠ a)

/-- Milliseconds per day, the source's `1000 * 3600 * 24`. -/
def msPerDay : ℚ := 1000 * 3600 * 24

/-- The source's `(now.getTime() - dateCreated.getTime()) / (1000*3600*24)`,
in exact fractional days. -/
def ageInDays (now created : Int) : ℚ :=
  ((now - created : Int) : ℚ) / msPerDay

/-- The retention thresholds: `settings?.automation?.movieRetentionDays || 7`
— a missing or falsy (zero) configured value falls back to the default. -/
def jsOrDefault (v : Option ℚ) (d : ℚ) : ℚ :=
  match v with
  | none => d
  | some x => if x = 0 then d else x

def movieRetentionDays (configured : Option ℚ) : ℚ := jsOrDefault configured 7

def tvSeasonRetentionDays (configured : Option ℚ) : ℚ := jsOrDefault configured 28

/-- The per-item predicate of `handleScan`'s filter: drop excluded ids,
otherwise compare the fractional age against the per-kind threshold
(strict greater-than); entries of any other kind are dropped. -/
def itemFilter (exclusions : List String) (mdays sdays : ℚ) (now : Int)
    (item : JellyfinItem) : Bool :=
  if item.Id ∈ exclusions then false
  else
    let age := ageInDays now item.DateCreated
    if item.«Type» = "Movie" ∧ age > mdays then true
    else if item.«Type» = "Season" ∧ age > sdays then true
    else false

/-- The retention policy evaluator: `allItems.filter(...)` of `handleScan`. -/
def evaluate (entries : List JellyfinItem) (exclusions : List String)
    (mdays sdays : ℚ) (now : Int) : List JellyfinItem :=
  entries.filter (itemFilter exclusions mdays sdays now)

/-- One catalog-derived log message per translation key used by the
Automation component, with the interpolation parameters the source passes
to `t(...)`.  (The wall-clock `toLocaleTimeString()` prefix of `addLog` is
real time and is not modelled.) -/
inductive LogMsg where
  | scanStarted
  | scanFoundItems (count : Nat)
  | scanComplete (count : Nat)
  | logErr (error : String)
  | itemExcluded (name : String)
  | allExcluded (count : Nat)
  | deletionStarted (count : Nat)
  | deletionFailedRadarr (name : String)
  | deletionFailedTmdb (name : String)
  | deletionSuccessRadarr (name : String)
  | deletionInfoRadarr (name : String)
  | deletionFailedSonarr (seriesName : Option String) (name : String)
  | deletionFailedTvdb (seriesName : Option String) (name : String)
  | deletionFailedSeasonNumber (name : String)
  | deletionInfoSonarrFiles (seriesName : Option String) (name : String)
  | deletionFailedEpisode (seriesName : Option String) (name : String) (error : String)
  | deletionSuccessSonarr (count : Nat) (seriesName : Option String) (name : String)
  | deletionFailedSonarrMulti (seriesName : Option String) (name : String)
  | deletionInfoSonarrSeries (seriesName : Option String)
  | deletionComplete (successCount total : Nat)
deriving DecidableEq, Repr

/-- An external deletion request issued by `handleDelete`. -/
inductive DeleteCall where
  | radarr (movieId : Int)
  | sonarrEpisodeFile (fileId : Int)
deriving DecidableEq, Repr

/-- The mutable state threaded through one `handleDelete` run: the log list
(the source's `logs`, to which `addLog` PREPENDS), the source's local
`successCount`, and the chronological list of external deletion requests
issued so far (instrumentation for the calls the run performs). -/
structure St where
  logs : List LogMsg
  successCount : Nat
  calls : List DeleteCall
deriving DecidableEq, Repr

/-- The source's `addLog`: `setLogs(prev => [msg, ...prev])` — prepend. -/
def addLog (st : St) (m : LogMsg) : St :=
  { st with logs := m :: st.logs }

def bumpSuccess (st : St) : St :=
  { st with successCount := st.successCount + 1 }

def recordCall (st : St) (c : DeleteCall) : St :=
  { st with calls := st.calls ++ [c] }

/-- Oracle environment for one `handleDelete` run: the configured settings
and the responses of the external services.  Failing external calls are
modelled with `Except String`, the error carrying the thrown message; the
pre-fetch lookups are modelled as non-throwing responses. -/
structure DeleteEnv where
  settings : Settings
  getRadarrMovies : List RadarrMovie
  getSonarrSeries : List SonarrSeries
  getItemsByIds : List String → List JellyfinItem
  deleteRadarrMovie : Int → Except String Unit
  getSonarrEpisodes : Int → Except String (List SonarrEpisode)
  deleteSonarrEpisodeFile : Int → Except String Unit

/-- The source's `seriesIdToProviderIdMap.get(item.SeriesId!)`: the map is
built from the fetched parent-series entries (`[s.Id, s.ProviderIds?.Tvdb]`;
a JS `Map` keeps the LAST entry for a duplicate key, hence the reverse
search), and `get` of a missing or absent key yields `undefined`. -/
def seriesTvdbLookup (parents : List JellyfinItem) : Option String → Option String
  | none => none
  | some sid =>
    match parents.reverse.find? (fun p => p.Id == sid) with
    | some p => p.ProviderIds.Tvdb
    | none => none

/-- The Movie branch of `handleDelete`'s per-item loop.  A `.error` result
models an exception escaping the branch (the `deleteRadarrMovie` call has
no surrounding per-item catch in the source), carrying the state at throw
time. -/
def processMovie (env : DeleteEnv) (movies : List RadarrMovie) (st : St)
    (item : JellyfinItem) : Except (St × String) St :=
  if !(arrConfigured env.settings.radarr) then
    .ok (addLog st (.deletionFailedRadarr item.Name))
  else if falsyStr item.ProviderIds.Tmdb then
    .ok (addLog st (.deletionFailedTmdb item.Name))
  else
    match movies.find? (fun m => parseMatch (item.ProviderIds.Tmdb.getD "") m.tmdbId) with
    | some rm =>
      let st1 := recordCall st (.radarr rm.id)
      match env.deleteRadarrMovie rm.id with
      | .ok _ => .ok (bumpSuccess (addLog st1 (.deletionSuccessRadarr item.Name)))
      | .error e => .error (st1, e)
    | none => .ok (addLog st (.deletionInfoRadarr item.Name))

/-- The per-episode deletion loop of the Season branch: every episode-file
deletion is attempted inside its own try/catch, a failure logging the
episode error and clearing the `episodeDeletionSuccess` flag but never
stopping the loop. -/
def processEpisodes (del : Int → Except String Unit) (seriesName : Option String)
    (name : String) : St → Bool → List SonarrEpisode → St × Bool
  | st, flag, [] => (st, flag)
  | st, flag, e :: rest =>
    let st1 := recordCall st (.sonarrEpisodeFile e.episodeFileId)
    match del e.episodeFileId with
    | .ok _ => processEpisodes del seriesName name st1 flag rest
    | .error m =>
      processEpisodes del seriesName name
        (addLog st1 (.deletionFailedEpisode seriesName name m)) false rest

/-- The Season branch of `handleDelete`'s per-item loop.  Only the
episode-file deletions are individually caught; an exception from
`getSonarrEpisodes` escapes as `.error`. -/
def processSeason (env : DeleteEnv) (seriesL : List SonarrSeries)
    (parents : List JellyfinItem) (st : St) (item : JellyfinItem) :
    Except (St × String) St :=
  if !(arrConfigured env.settings.sonarr) then
    .ok (addLog st (.deletionFailedSonarr item.SeriesName item.Name))
  else
    let tvdbId := seriesTvdbLookup parents item.SeriesId
    if falsyStr tvdbId then
      .ok (addLog st (.deletionFailedTvdb item.SeriesName item.Name))
    else
      match seriesL.find? (fun s => parseMatch (tvdbId.getD "") s.tvdbId) with
      | some ss =>
        match env.getSonarrEpisodes ss.id with
        | .error e => .error (st, e)
        | .ok episodes =>
          match firstDigitRun item.Name.toList with
          | none => .ok (addLog st (.deletionFailedSeasonNumber item.Name))
          | some ds =>
            let seasonNumber : Int := (digitsVal ds : Nat)
            let episodesToDelete :=
              episodes.filter (fun e => e.seasonNumber == seasonNumber && e.hasFile)
            if episodesToDelete.isEmpty then
              .ok (bumpSuccess (addLog st (.deletionInfoSonarrFiles item.SeriesName item.Name)))
            else
              let r := processEpisodes env.deleteSonarrEpisodeFile item.SeriesName
                item.Name st true episodesToDelete
              if r.2 then
                .ok (bumpSuccess (addLog r.1
                  (.deletionSuccessSonarr episodesToDelete.length item.SeriesName item.Name)))
              else
                .ok (addLog r.1 (.deletionFailedSonarrMulti item.SeriesName item.Name))
      | none => .ok (addLog st (.deletionInfoSonarrSeries item.SeriesName))

/-- One iteration of `for (const item of itemsToDelete)`: the `if/else if`
dispatch on `item.Type`; items of any other kind fall through silently. -/
def processItem (env : DeleteEnv) (movies : List RadarrMovie)
    (seriesL : List SonarrSeries) (parents : List JellyfinItem) (st : St)
    (item : JellyfinItem) : Except (St × String) St :=
  if item.«Type» = "Movie" then processMovie env movies st item
  else if item.«Type» = "Season" then processSeason env seriesL parents st item
  else .ok st

/-- The per-item loop: sequential, stopping at the first escaping
exception (the loop body has no per-item catch). -/
def runLoop (env : DeleteEnv) (movies : List RadarrMovie)
    (seriesL : List SonarrSeries) (parents : List JellyfinItem) :
    St → List JellyfinItem → Except (St × String) St
  | st, [] => .ok st
  | st, item :: rest =>
    match processItem env movies seriesL parents st item with
    | .ok st' => runLoop env movies seriesL parents st' rest
    | .error p => .error p

/-- The state a run ends in, whether the loop finished or threw. -/
def stOf : Except (St × String) St → St
  | .ok st => st
  | .error p => p.1

/-- The body of `handleDelete` after the batch is fixed: pre-fetch (movie
records and series records only when the service is configured, parent
series entries for the distinct truthy `SeriesId`s of Season items), then
the per-item loop inside one try/catch whose handler logs the thrown
message, then the unconditional completion log. -/
def prefetchMovies (env : DeleteEnv) : List RadarrMovie :=
  if arrConfigured env.settings.radarr then env.getRadarrMovies else []

def prefetchSeriesL (env : DeleteEnv) : List SonarrSeries :=
  if arrConfigured env.settings.sonarr then env.getSonarrSeries else []

/-- The parent-series pre-fetch: the distinct truthy `SeriesId`s of the
batch's Season items, looked up only when there is at least one. -/
def prefetchParents (env : DeleteEnv) (itemsToDelete : List JellyfinItem) :
    List JellyfinItem :=
  let seasonItems := itemsToDelete.filter (fun i => i.«Type» == "Season")
  let seriesIds := jsSetDedup
    ((seasonItems.filterMap (fun s => s.SeriesId)).filter (fun sid => sid ≠ ""))
  if seriesIds.length > 0 then env.getItemsByIds seriesIds else []

def runDelete (env : DeleteEnv) (st0 : St) (itemsToDelete : List JellyfinItem) : St :=
  match runLoop env (prefetchMovies env) (prefetchSeriesL env)
      (prefetchParents env itemsToDelete) st0 itemsToDelete with
  | .ok st => addLog st (.deletionComplete st.successCount itemsToDelete.length)
  | .error (st, e) =>
    addLog (addLog st (.logErr e)) (.deletionComplete st.successCount itemsToDelete.length)

/-- Result discriminator for an `Except`. -/
def isOkE {ε α : Type} : Except ε α → Bool
  | .ok _ => true
  | .error _ => false

/-- The messages the per-episode loop emits, in chronological (processing)
order: one failure message per throwing episode-file deletion. -/
def chronoEpisodes (del : Int → Except String Unit) (sn : Option String)
    (n : String) (eps : List SonarrEpisode) : List LogMsg :=
  eps.filterMap (fun e =>
    match del e.episodeFileId with
    | .ok _ => none
    | .error m => some (.deletionFailedEpisode sn n m))

/-- The messages the Movie branch emits, in chronological order, paired
with whether the branch finishes without an escaping exception. -/
def chronoMovie (env : DeleteEnv) (movies : List RadarrMovie)
    (item : JellyfinItem) : List LogMsg × Bool :=
  if !(arrConfigured env.settings.radarr) then ([.deletionFailedRadarr item.Name], true)
  else if falsyStr item.ProviderIds.Tmdb then ([.deletionFailedTmdb item.Name], true)
  else
    match movies.find? (fun m => parseMatch (item.ProviderIds.Tmdb.getD "") m.tmdbId) with
    | some rm =>
      match env.deleteRadarrMovie rm.id with
      | .ok _ => ([.deletionSuccessRadarr item.Name], true)
      | .error _ => ([], false)
    | none => ([.deletionInfoRadarr item.Name], true)

/-- The messages the Season branch emits, in chronological order, paired
with whether the branch finishes without an escaping exception. -/
def chronoSeason (env : DeleteEnv) (seriesL : List SonarrSeries)
    (parents : List JellyfinItem) (item : JellyfinItem) : List LogMsg × Bool :=
  if !(arrConfigured env.settings.sonarr) then
    ([.deletionFailedSonarr item.SeriesName item.Name], true)
  else
    let tvdbId := seriesTvdbLookup parents item.SeriesId
    if falsyStr tvdbId then ([.deletionFailedTvdb item.SeriesName item.Name], true)
    else
      match seriesL.find? (fun s => parseMatch (tvdbId.getD "") s.tvdbId) with
      | some ss =>
        match env.getSonarrEpisodes ss.id with
        | .error _ => ([], false)
        | .ok episodes =>
          match firstDigitRun item.Name.toList with
          | none => ([.deletionFailedSeasonNumber item.Name], true)
          | some ds =>
            let seasonNumber : Int := (digitsVal ds : Nat)
            let episodesToDelete :=
              episodes.filter (fun e => e.seasonNumber == seasonNumber && e.hasFile)
            if episodesToDelete.isEmpty then
              ([.deletionInfoSonarrFiles item.SeriesName item.Name], true)
            else
              let msgs := chronoEpisodes env.deleteSonarrEpisodeFile item.SeriesName
                item.Name episodesToDelete
              if episodesToDelete.all (fun e => isOkE (env.deleteSonarrEpisodeFile e.episodeFileId)) then
                (msgs ++ [.deletionSuccessSonarr episodesToDelete.length item.SeriesName item.Name], true)
              else
                (msgs ++ [.deletionFailedSonarrMulti item.SeriesName item.Name], true)
      | none => ([.deletionInfoSonarrSeries item.SeriesName], true)

/-- The messages one loop iteration emits, in chronological order. -/
def chronoItem (env : DeleteEnv) (movies : List RadarrMovie)
    (seriesL : List SonarrSeries) (parents : List JellyfinItem)
    (item : JellyfinItem) : List LogMsg × Bool :=
  if item.«Type» = "Movie" then chronoMovie env movies item
  else if item.«Type» = "Season" then chronoSeason env seriesL parents item
  else ([], true)

/-- The messages the whole per-item loop emits, in chronological order,
cut off after the first escaping exception. -/
def chronoLoop (env : DeleteEnv) (movies : List RadarrMovie)
    (seriesL : List SonarrSeries) (parents : List JellyfinItem) :
    List JellyfinItem → List LogMsg
  | [] => []
  | i :: rest =>
    let r := chronoItem env movies seriesL parents i
    if r.2 then r.1 ++ chronoLoop env movies seriesL parents rest else r.1

/-- The Automation component's state visible to the exclusion-management
handlers and `handleDelete`: the persisted exclusion id list, the eligible
pool (`deletableItems`), the selection (a JS `Set`, modelled as its
insertion-ordered duplicate-free element list), and the log. -/
structure AppState where
  exclusions : List String
  deletableItems : List JellyfinItem
  selectedItems : List String
  logs : List LogMsg
deriving DecidableEq, Repr

/-- The source's `handleExcludeItem`: add the id to the persisted set
(`[...new Set([...prev, id])]`), drop the item from the eligible pool and
from the selection, and log. -/
def handleExcludeItem (item : JellyfinItem) (s : AppState) : AppState :=
  { s with
    exclusions := jsSetDedup (s.exclusions ++ [item.Id]),
    deletableItems := s.deletableItems.filter (fun i => i.Id ≠ item.Id),
    selectedItems := s.selectedItems.filter (fun x => x ≠ item.Id),
    logs := .itemExcluded item.Name :: s.logs }

/-- The source's `handleExcludeAll`: early return on an empty pool,
otherwise add every pool id to the persisted set in one update, log, and
clear the pool and the selection. -/
def handleExcludeAll (s : AppState) : AppState :=
  if s.deletableItems.length = 0 then s
  else
    let idsToExclude := s.deletableItems.map (fun i => i.Id)
    { s with
      exclusions := jsSetDedup (s.exclusions ++ idsToExclude),
      logs := .allExcluded idsToExclude.length :: s.logs,
      deletableItems := [],
      selectedItems := [] }

/-- The source's `handleScan` (successful fetch path): log the start and
the fetched count, run the retention filter, publish the eligible pool
with everything selected by default, and log completion. -/
def handleScan (allItems : List JellyfinItem) (mdays sdays : ℚ) (now : Int)
    (s : AppState) : AppState :=
  let logs1 := LogMsg.scanStarted :: s.logs
  let logs2 := LogMsg.scanFoundItems allItems.length :: logs1
  let itemsToFilter := evaluate allItems s.exclusions mdays sdays now
  { s with
    deletableItems := itemsToFilter,
    selectedItems := itemsToFilter.map (fun i => i.Id),
    logs := LogMsg.scanComplete itemsToFilter.length :: logs2 }

/-- The source's `handleDelete` at component level: early return on an
empty selection, otherwise narrow the pool to the selected batch, run the
deletion (logging the start first), and finally re-invoke `handleScan`
with the post-run catalog contents. -/
def handleDelete (env : DeleteEnv) (allItems : List JellyfinItem)
    (mdays sdays : ℚ) (now : Int) (s : AppState) : AppState :=
  if s.selectedItems.length = 0 then s
  else
    let itemsToDelete := s.deletableItems.filter (fun i => s.selectedItems.contains i.Id)
    let st0 : St := ⟨LogMsg.deletionStarted s.selectedItems.length :: s.logs, 0, []⟩
    let stF := runDelete env st0 itemsToDelete
    handleScan allItems mdays sdays now { s with logs := stF.logs }

lemma processEpisodes_calls (del : Int → Except String Unit) (sn : Option String)
    (n : String) : ∀ (eps : List SonarrEpisode) (st : St) (flag : Bool),
    (processEpisodes del sn n st flag eps).1.calls =
      st.calls ++ eps.map (fun e => DeleteCall.sonarrEpisodeFile e.episodeFileId) := by
  intro eps
  induction eps with
  | nil => intro st flag; simp [processEpisodes]
  | cons e rest ih =>
    intro st flag
    cases hd : del e.episodeFileId with
    | ok v => simp [processEpisodes, hd, ih, recordCall, List.append_assoc]
    | error m => simp [processEpisodes, hd, ih, recordCall, addLog, List.append_assoc]

lemma processEpisodes_flag (del : Int → Except String Unit) (sn : Option String)
    (n : String) : ∀ (eps : List SonarrEpisode) (st : St) (flag : Bool),
    (processEpisodes del sn n st flag eps).2 =
      (flag && eps.all (fun e => isOkE (del e.episodeFileId))) := by
  intro eps
  induction eps with
  | nil => intro st flag; simp [processEpisodes]
  | cons e rest ih =>
    intro st flag
    cases hd : del e.episodeFileId with
    | ok v => simp [processEpisodes, hd, ih, isOkE, Bool.and_assoc]
    | error m => simp [processEpisodes, hd, ih, isOkE]

lemma processEpisodes_logs (del : Int → Except String Unit) (sn : Option String)
    (n : String) : ∀ (eps : List SonarrEpisode) (st : St) (flag : Bool),
    (processEpisodes del sn n st flag eps).1.logs =
      (chronoEpisodes del sn n eps).reverse ++ st.logs := by
  intro eps
  induction eps with
  | nil => intro st flag; simp [processEpisodes, chronoEpisodes]
  | cons e rest ih =>
    intro st flag
    cases hd : del e.episodeFileId with
    | ok v => simp [processEpisodes, chronoEpisodes, hd, ih, recordCall]
    | error m =>
      simp [processEpisodes, chronoEpisodes, hd, ih, recordCall, addLog,
        List.append_assoc]

lemma processEpisodes_successCount (del : Int → Except String Unit)
    (sn : Option String) (n : String) : ∀ (eps : List SonarrEpisode) (st : St)
    (flag : Bool),
    (processEpisodes del sn n st flag eps).1.successCount = st.successCount := by
  intro eps
  induction eps with
  | nil => intro st flag; simp [processEpisodes]
  | cons e rest ih =>
    intro st flag
    cases hd : del e.episodeFileId with
    | ok v => simp [processEpisodes, hd, ih, recordCall]
    | error m => simp [processEpisodes, hd, ih, recordCall, addLog]

lemma mem_jsSetDedup {α : Type} [DecidableEq α] (l : List α) (x : α) :
    x ∈ jsSetDedup l ↔ x ∈ l := by
  induction l with
  | nil => simp [jsSetDedup]
  | cons a as ih =>
    simp only [jsSetDedup, List.mem_cons, List.mem_filter, ih]
    by_cases h : x = a <;> simp [h]

lemma jsSetDedup_eq_self {α : Type} [DecidableEq α] {l : List α}
    (h : l.Nodup) : jsSetDedup l = l := by
  induction l with
  | nil => rfl
  | cons a as ih =>
    obtain ⟨ha, has⟩ := List.nodup_cons.mp h
    rw [jsSetDedup, ih has]
    congr 1
    apply List.filter_eq_self.mpr
    intro x hx
    simp only [ne_eq, decide_eq_true_eq]
    exact fun hxa => ha (hxa ▸ hx)

lemma jsSetDedup_append_mem {α : Type} [DecidableEq α] {l : List α} {a : α}
    (hmem : a ∈ l) (h : l.Nodup) : jsSetDedup (l ++ [a]) = l := by
  induction l with
  | nil => cases hmem
  | cons b bs ih =>
    obtain ⟨hb, hbs⟩ := List.nodup_cons.mp h
    rcases List.mem_cons.mp hmem with rfl | hmem'
    · have hnd : (bs ++ [a]).Nodup := by
        simp only [List.nodup_append, List.nodup_cons, List.not_mem_nil,
          not_false_iff, List.nodup_nil, and_true, true_and]
        constructor
        · exact hbs
        · intro x hx
          simp only [List.mem_singleton]
          exact fun hxa => hb (hxa ▸ hx)
      rw [List.cons_append, jsSetDedup, jsSetDedup_eq_self hnd]
      congr 1
      rw [List.filter_append]
      have h1 : bs.filter (fun x => x ≠ a) = bs := by
        apply List.filter_eq_self.mpr
        intro x hx
        simp only [ne_eq, decide_eq_true_eq]
        exact fun hxa => hb (hxa ▸ hx)
      have h2 : [a].filter (fun x => x ≠ a) = [] := by simp
      rw [h1, h2, List.append_nil]
    · have hab : a ≠ b := fun hh => hb (hh ▸ hmem')
      rw [List.cons_append, jsSetDedup, ih hmem' hbs]
      congr 1
      apply List.filter_eq_self.mpr
      intro x hx
      simp only [ne_eq, decide_eq_true_eq]
      exact fun hxb => hb (hxb ▸ hx)

lemma processMovie_chrono (env : DeleteEnv) (movies : List RadarrMovie)
    (st : St) (item : JellyfinItem) :
    (stOf (processMovie env movies st item)).logs =
      (chronoMovie env movies item).1.reverse ++ st.logs
    ∧ isOkE (processMovie env movies st item) = (chronoMovie env movies item).2 := by
  unfold processMovie chronoMovie
  split_ifs with h1 h2
  · simp [stOf, isOkE, addLog]
  · simp [stOf, isOkE, addLog]
  · cases hf : movies.find? (fun m => parseMatch (item.ProviderIds.Tmdb.getD "") m.tmdbId) with
    | none => simp [hf, stOf, isOkE, addLog]
    | some rm =>
      cases hd : env.deleteRadarrMovie rm.id with
      | ok v => simp [hf, hd, stOf, isOkE, addLog, bumpSuccess, recordCall]
      | error e => simp [hf, hd, stOf, isOkE, recordCall]

lemma processSeason_chrono (env : DeleteEnv) (seriesL : List SonarrSeries)
    (parents : List JellyfinItem) (st : St) (item : JellyfinItem) :
    (stOf (processSeason env seriesL parents st item)).logs =
      (chronoSeason env seriesL parents item).1.reverse ++ st.logs
    ∧ isOkE (processSeason env seriesL parents st item) =
      (chronoSeason env seriesL parents item).2 := by
  unfold processSeason chronoSeason
  cases hc : arrConfigured env.settings.sonarr with
  | false => simp [hc, stOf, isOkE, addLog]
  | true =>
    simp only [hc, Bool.not_true, Bool.false_eq_true, if_false]
    cases hfal : falsyStr (seriesTvdbLookup parents item.SeriesId) with
    | true => simp [hfal, stOf, isOkE, addLog]
    | false =>
      simp only [hfal, Bool.false_eq_true, if_false]
      cases hf : seriesL.find?
          (fun s => parseMatch ((seriesTvdbLookup parents item.SeriesId).getD "") s.tvdbId) with
      | none => simp [hf, stOf, isOkE, addLog]
      | some ss =>
        cases hE : env.getSonarrEpisodes ss.id with
        | error e => simp [hf, hE, stOf, isOkE]
        | ok episodes =>
          cases hD : firstDigitRun item.Name.toList with
          | none => simp [hf, hE, hD, stOf, isOkE, addLog]
          | some ds =>
            simp only [hf, hE, hD]
            cases hEmp : (episodes.filter
                (fun e => e.seasonNumber == ((digitsVal ds : Nat) : Int) && e.hasFile)).isEmpty with
            | true => simp [hEmp, stOf, isOkE, addLog, bumpSuccess]
            | false =>
              simp only [hEmp, Bool.false_eq_true, if_false]
              rw [processEpisodes_flag]
              simp only [Bool.true_and]
              cases hAll : (episodes.filter
                  (fun e => e.seasonNumber == ((digitsVal ds : Nat) : Int) && e.hasFile)).all
                  (fun e => isOkE (env.deleteSonarrEpisodeFile e.episodeFileId)) with
              | true =>
                simp [hAll, stOf, isOkE, addLog, bumpSuccess, processEpisodes_logs,
                  List.reverse_append, List.append_assoc]
              | false =>
                simp [hAll, stOf, isOkE, addLog, processEpisodes_logs,
                  List.reverse_append, List.append_assoc]

lemma processItem_chrono (env : DeleteEnv) (movies : List RadarrMovie)
    (seriesL : List SonarrSeries) (parents : List JellyfinItem) (st : St)
    (item : JellyfinItem) :
    (stOf (processItem env movies seriesL parents st item)).logs =
      (chronoItem env movies seriesL parents item).1.reverse ++ st.logs
    ∧ isOkE (processItem env movies seriesL parents st item) =
      (chronoItem env movies seriesL parents item).2 := by
  unfold processItem chronoItem
  split_ifs with h1 h2
  · exact processMovie_chrono env movies st item
  · exact processSeason_chrono env seriesL parents st item
  · simp [stOf, isOkE]

lemma runLoop_chrono (env : DeleteEnv) (movies : List RadarrMovie)
    (seriesL : List SonarrSeries) (parents : List JellyfinItem) :
    ∀ (items : List JellyfinItem) (st : St),
    (stOf (runLoop env movies seriesL parents st items)).logs =
      (chronoLoop env movies seriesL parents items).reverse ++ st.logs := by
  intro items
  induction items with
  | nil => intro st; simp [runLoop, chronoLoop, stOf]
  | cons i rest ih =>
    intro st
    obtain ⟨hl, hb⟩ := processItem_chrono env movies seriesL parents st i
    cases hp : processItem env movies seriesL parents st i with
    | ok st' =>
      have hcont : (chronoItem env movies seriesL parents i).2 = true := by
        rw [← hb, hp]; rfl
      have hst' : st'.logs = (chronoItem env movies seriesL parents i).1.reverse ++ st.logs := by
        rw [← hl, hp]; rfl
      simp only [runLoop, hp]
      rw [ih st', hst']
      simp [chronoLoop, hcont, List.reverse_append, List.append_assoc]
    | error p =>
      have hcont : (chronoItem env movies seriesL parents i).2 = false := by
        rw [← hb, hp]; rfl
      have hst' : p.1.logs = (chronoItem env movies seriesL parents i).1.reverse ++ st.logs := by
        rw [← hl, hp]; rfl
      simp only [runLoop, hp]
      simp [stOf, chronoLoop, hcont, hst']

lemma runLoop_error_stops (env : DeleteEnv) (movies : List RadarrMovie)
    (seriesL : List SonarrSeries) (parents : List JellyfinItem) :
    ∀ (items : List JellyfinItem) (st : St) (p : St × String),
    runLoop env movies seriesL parents st items = .error p →
    ∀ (more : List JellyfinItem),
      runLoop env movies seriesL parents st (items ++ more) = .error p := by
  intro items
  induction items with
  | nil => intro st p h more; simp [runLoop] at h
  | cons i rest ih =>
    intro st p h more
    cases hp : processItem env movies seriesL parents st i with
    | ok st' =>
      simp only [runLoop, hp] at h
      simp only [List.cons_append, runLoop, hp]
      exact ih st' p h more
    | error q =>
      simp only [runLoop, hp] at h
      simp only [List.cons_append, runLoop, hp]
      exact h

lemma processSeason_no_throw (env : DeleteEnv) (seriesL : List SonarrSeries)
    (parents : List JellyfinItem) (st : St) (item : JellyfinItem)
    (h : ∀ i, isOkE (env.getSonarrEpisodes i) = true) :
    isOkE (processSeason env seriesL parents st item) = true := by
  unfold processSeason
  cases hc : arrConfigured env.settings.sonarr with
  | false => simp [hc, isOkE]
  | true =>
    simp only [hc, Bool.not_true, Bool.false_eq_true, if_false]
    cases hfal : falsyStr (seriesTvdbLookup parents item.SeriesId) with
    | true => simp [hfal, isOkE]
    | false =>
      simp only [hfal, Bool.false_eq_true, if_false]
      cases hf : seriesL.find?
          (fun s => parseMatch ((seriesTvdbLookup parents item.SeriesId).getD "") s.tvdbId) with
      | none => simp [hf, isOkE]
      | some ss =>
        cases hE : env.getSonarrEpisodes ss.id with
        | error e =>
          have hok := h ss.id
          rw [hE] at hok
          simp [isOkE] at hok
        | ok episodes =>
          cases hD : firstDigitRun item.Name.toList with
          | none => simp [hf, hE, hD, isOkE]
          | some ds =>
            simp only [hf, hE, hD]
            split_ifs <;> simp [isOkE]

/-- Classifier for the per-item terminal outcome messages (as opposed to
run-lifecycle markers, per-episode detail messages and the run-level
error message). -/
def isItemOutcome : LogMsg → Bool
  | .deletionFailedRadarr _ => true
  | .deletionFailedTmdb _ => true
  | .deletionSuccessRadarr _ => true
  | .deletionInfoRadarr _ => true
  | .deletionFailedSonarr _ _ => true
  | .deletionFailedTvdb _ _ => true
  | .deletionFailedSeasonNumber _ => true
  | .deletionInfoSonarrFiles _ _ => true
  | .deletionSuccessSonarr _ _ _ => true
  | .deletionFailedSonarrMulti _ _ => true
  | .deletionInfoSonarrSeries _ => true
  | _ => false

/-- Classifier for the per-episode failure detail messages. -/
def isFailedEpisodeLog : LogMsg → Bool
  | .deletionFailedEpisode _ _ _ => true
  | _ => false

def radarrCfg : ArrSettings := ⟨"http://radarr", "key"⟩

def sonarrCfg : ArrSettings := ⟨"http://sonarr", "key"⟩

def movieItem (id name tmdb : String) : JellyfinItem :=
  { Id := id, «Type» := "Movie", Name := name, DateCreated := 0,
    ProviderIds := { Tmdb := some tmdb } }

/-- Three-movie batch whose second item's delete call throws. -/
def itemsC1 : List JellyfinItem :=
  [movieItem "m1" "M1" "1", movieItem "m2" "M2" "2", movieItem "m3" "M3" "3"]

def envC1 : DeleteEnv :=
  { settings := { radarr := some radarrCfg, sonarr := none },
    getRadarrMovies := [⟨11, 1⟩, ⟨12, 2⟩, ⟨13, 3⟩],
    getSonarrSeries := [],
    getItemsByIds := fun _ => [],
    deleteRadarrMovie := fun i => if i = 12 then .error "boom" else .ok (),
    getSonarrEpisodes := fun _ => .ok [],
    deleteSonarrEpisodeFile := fun _ => .ok () }

/-- Two-movie batch where both deletes succeed. -/
def itemsC7 : List JellyfinItem := [movieItem "m1" "M1" "1", movieItem "m2" "M2" "2"]

def envC7 : DeleteEnv :=
  { settings := { radarr := some radarrCfg, sonarr := none },
    getRadarrMovies := [⟨11, 1⟩, ⟨12, 2⟩],
    getSonarrSeries := [],
    getItemsByIds := fun _ => [],
    deleteRadarrMovie := fun _ => .ok (),
    getSonarrEpisodes := fun _ => .ok [],
    deleteSonarrEpisodeFile := fun _ => .ok () }

/-- Ten days in epoch milliseconds. -/
def tenDaysMs : Int := 864000000

/-- The spec scenario's Movie entry: created ten days before `now`, with
the external id "tt1". -/
def itemC4 : JellyfinItem :=
  { Id := "a1", «Type» := "Movie", Name := "A", DateCreated := 0,
    ProviderIds := { Tmdb := some "tt1" } }

def envC4 : DeleteEnv :=
  { settings := { radarr := some radarrCfg, sonarr := none },
    getRadarrMovies := [⟨1, 1⟩],
    getSonarrSeries := [],
    getItemsByIds := fun _ => [],
    deleteRadarrMovie := fun _ => .ok (),
    getSonarrEpisodes := fun _ => .ok [],
    deleteSonarrEpisodeFile := fun _ => .ok () }

/-- The same scenario with a numeric external id, which the source's
`parseInt`-based matching can actually resolve. -/
def itemC4b : JellyfinItem :=
  { Id := "a2", «Type» := "Movie", Name := "A2", DateCreated := 0,
    ProviderIds := { Tmdb := some "101" } }

def envC4b : DeleteEnv :=
  { settings := { radarr := some radarrCfg, sonarr := none },
    getRadarrMovies := [⟨5, 101⟩],
    getSonarrSeries := [],
    getItemsByIds := fun _ => [],
    deleteRadarrMovie := fun _ => .ok (),
    getSonarrEpisodes := fun _ => .ok [],
    deleteSonarrEpisodeFile := fun _ => .ok () }

def seasonItemX : JellyfinItem :=
  { Id := "se1", «Type» := "Season", Name := "Season 2", DateCreated := 0,
    SeriesId := some "s1", SeriesName := some "S" }

def parentsX : List JellyfinItem :=
  [{ Id := "s1", «Type» := "Series", Name := "S", DateCreated := 0,
     ProviderIds := { Tvdb := some "99" } }]

def seriesX : List SonarrSeries := [⟨7, 99⟩]

/-- Two has-file episodes of season 2. -/
def epsX : List SonarrEpisode := [⟨2, true, 21⟩, ⟨2, true, 22⟩]

/-- Environment where exactly one of the two episode-file deletions of
`epsX` throws. -/
def envFail1 : DeleteEnv :=
  { settings := { radarr := none, sonarr := some sonarrCfg },
    getRadarrMovies := [],
    getSonarrSeries := seriesX,
    getItemsByIds := fun _ => parentsX,
    deleteRadarrMovie := fun _ => .ok (),
    getSonarrEpisodes := fun _ => .ok epsX,
    deleteSonarrEpisodeFile := fun i => if i = 21 then .error "neterr" else .ok () }

/-- Environment where both episode-file deletions of `epsX` throw. -/
def envFail2 : DeleteEnv :=
  { settings := { radarr := none, sonarr := some sonarrCfg },
    getRadarrMovies := [],
    getSonarrSeries := seriesX,
    getItemsByIds := fun _ => parentsX,
    deleteRadarrMovie := fun _ => .ok (),
    getSonarrEpisodes := fun _ => .ok epsX,
    deleteSonarrEpisodeFile := fun _ => .error "neterr" }

/-- Environment for the empty-season scenario: season 2 has a single
episode record with no file attached. -/
def envEmptySeason : DeleteEnv :=
  { settings := { radarr := none, sonarr := some sonarrCfg },
    getRadarrMovies := [],
    getSonarrSeries := seriesX,
    getItemsByIds := fun _ => parentsX,
    deleteRadarrMovie := fun _ => .ok (),
    getSonarrEpisodes := fun _ => .ok [⟨2, false, 5⟩],
    deleteSonarrEpisodeFile := fun _ => .error "should not be called" }

lemma ageInDays_tenDays : ageInDays tenDaysMs 0 = 10 := by
  unfold ageInDays tenDaysMs msPerDay
  norm_num

/-- Claim C2: for an entry not in the exclusion set, the evaluator marks a
Movie entry eligible iff its fractional age strictly exceeds the movie
threshold, a Season entry iff its age strictly exceeds the season
threshold, and any other kind never; an entry whose age equals its
threshold exactly is not eligible. -/
theorem C2_evaluator_eligibility (exclusions : List String) (mdays sdays : ℚ)
    (now : Int) (item : JellyfinItem) (h : item.Id ∉ exclusions) :
    (itemFilter exclusions mdays sdays now item = true ↔
      ((item.«Type» = "Movie" ∧ ageInDays now item.DateCreated > mdays) ∨
       (item.«Type» = "Season" ∧ ageInDays now item.DateCreated > sdays)))
    ∧ (item.«Type» = "Movie" → ageInDays now item.DateCreated = mdays →
        itemFilter exclusions mdays sdays now item = false)
    ∧ (item.«Type» = "Season" → ageInDays now item.DateCreated = sdays →
        itemFilter exclusions mdays sdays now item = false)
    ∧ (item.«Type» ≠ "Movie" → item.«Type» ≠ "Season" →
        itemFilter exclusions mdays sdays now item = false) := by
  simp only [itemFilter, if_neg h]
  refine ⟨?_, ?_, ?_, ?_⟩
  · split_ifs with h1 h2
    · simp [h1]
    · simp [h2]
    · simp [h1, h2]
  · intro hT hA
    split_ifs with h1 h2
    · rw [hA] at h1
      exact absurd h1.2 (lt_irrefl mdays)
    · rw [hT] at h2
      exact absurd h2.1 (by decide)
    · rfl
  · intro hT hA
    split_ifs with h1 h2
    · rw [hT] at h1
      exact absurd h1.1 (by decide)
    · rw [hA] at h2
      exact absurd h2.2 (lt_irrefl sdays)
    · rfl
  · intro hM hS
    split_ifs with h1 h2
    · exact absurd h1.1 hM
    · exact absurd h2.1 hS
    · rfl

theorem C2_evaluator_eligibility_witness :
    (movieItem "w1" "W" "1").Id ∉ ([] : List String)
    ∧ (itemFilter [] 7 28 tenDaysMs (movieItem "w1" "W" "1") = true ↔
        (((movieItem "w1" "W" "1").«Type» = "Movie"
            ∧ ageInDays tenDaysMs (movieItem "w1" "W" "1").DateCreated > 7) ∨
         ((movieItem "w1" "W" "1").«Type» = "Season"
            ∧ ageInDays tenDaysMs (movieItem "w1" "W" "1").DateCreated > 28))) :=
  ⟨by decide,
   (C2_evaluator_eligibility [] 7 28 tenDaysMs (movieItem "w1" "W" "1") (by decide)).1⟩

/-- Claim C3: an entry whose id is in the exclusion set is never included
in the evaluator's output, regardless of its age or kind (the exclusion
check precedes the age comparison in the filter). -/
theorem C3_excluded_never_eligible (entries : List JellyfinItem)
    (exclusions : List String) (mdays sdays : ℚ) (now : Int)
    (item : JellyfinItem) (h : item.Id ∈ exclusions) :
    item ∉ evaluate entries exclusions mdays sdays now := by
  intro hmem
  unfold evaluate at hmem
  obtain ⟨-, hf⟩ := List.mem_filter.mp hmem
  simp only [itemFilter, if_pos h] at hf
  exact Bool.noConfusion hf

theorem C3_excluded_never_eligible_witness :
    (movieItem "x1" "X" "1").Id ∈ ["x1"]
    ∧ movieItem "x1" "X" "1" ∉
        evaluate [movieItem "x1" "X" "1"] ["x1"] 7 28 tenDaysMs :=
  ⟨by decide,
   C3_excluded_never_eligible [movieItem "x1" "X" "1"] ["x1"] 7 28 tenDaysMs
     (movieItem "x1" "X" "1") (by decide)⟩

/-- Claim C9: a deletion run never writes to the exclusion set — whatever
the environment, batch and outcomes, the component state after
`handleDelete` (including its terminal rescan) carries the exclusion list
unchanged. -/
theorem C9_run_preserves_exclusions (env : DeleteEnv)
    (allItems : List JellyfinItem) (mdays sdays : ℚ) (now : Int) (s : AppState) :
    (handleDelete env allItems mdays sdays now s).exclusions = s.exclusions := by
  unfold handleDelete handleScan
  split_ifs with h
  · rfl
  · rfl

/-- Claim C10: a missing or zero configured retention threshold falls back
to the defaults of 7 days (movie) and 28 days (season), so an effective
threshold of exactly 0 days can never be in effect. -/
theorem C10_threshold_defaults :
    movieRetentionDays none = 7 ∧ movieRetentionDays (some 0) = 7
    ∧ tvSeasonRetentionDays none = 28 ∧ tvSeasonRetentionDays (some 0) = 28
    ∧ (∀ v : Option ℚ, movieRetentionDays v ≠ 0)
    ∧ (∀ v : Option ℚ, tvSeasonRetentionDays v ≠ 0) := by
  refine ⟨rfl, ?_, rfl, ?_, ?_, ?_⟩
  · simp [movieRetentionDays, jsOrDefault]
  · simp [tvSeasonRetentionDays, jsOrDefault]
  · intro v
    cases v with
    | none => norm_num [movieRetentionDays, jsOrDefault]
    | some x =>
      simp only [movieRetentionDays, jsOrDefault]
      split_ifs with hx
      · norm_num
      · exact hx
  · intro v
    cases v with
    | none => norm_num [tvSeasonRetentionDays, jsOrDefault]
    | some x =>
      simp only [tvSeasonRetentionDays, jsOrDefault]
      split_ifs with hx
      · norm_num
      · exact hx

theorem C10_threshold_defaults_witness :
    movieRetentionDays (some 5) ≠ 0 :=
  C10_threshold_defaults.2.2.2.2.1 (some 5)

/-- Claim C8: exclusion operations are idempotent and duplicate-safe —
excluding an already-stored id leaves the store unchanged (as a set
always; as a list whenever the store is duplicate-free), `excludeAll`
empties the eligible pool and puts every pool id into the store, and
`excludeAll` on an empty pool is a no-op. -/
theorem C8_exclusion_idempotent :
    (∀ (s : AppState) (item : JellyfinItem),
      item.Id ∈ s.exclusions →
        (∀ x, x ∈ (handleExcludeItem item s).exclusions ↔ x ∈ s.exclusions)
        ∧ (s.exclusions.Nodup → (handleExcludeItem item s).exclusions = s.exclusions))
    ∧ (∀ s : AppState, (handleExcludeAll s).deletableItems = [])
    ∧ (∀ (s : AppState), ∀ i ∈ s.deletableItems,
        i.Id ∈ (handleExcludeAll s).exclusions)
    ∧ (∀ s : AppState, s.deletableItems = [] → handleExcludeAll s = s) := by
  refine ⟨?_, ?_, ?_, ?_⟩
  · intro s item hmem
    constructor
    · intro x
      show x ∈ jsSetDedup (s.exclusions ++ [item.Id]) ↔ x ∈ s.exclusions
      rw [mem_jsSetDedup, List.mem_append, List.mem_singleton]
      constructor
      · rintro (hx | rfl)
        · exact hx
        · exact hmem
      · exact Or.inl
    · intro hnd
      show jsSetDedup (s.exclusions ++ [item.Id]) = s.exclusions
      exact jsSetDedup_append_mem hmem hnd
  · intro s
    unfold handleExcludeAll
    split_ifs with h
    · exact List.length_eq_zero.mp h
    · rfl
  · intro s i hi
    unfold handleExcludeAll
    split_ifs with h
    · rw [List.length_eq_zero.mp h] at hi
      cases hi
    · show i.Id ∈ jsSetDedup (s.exclusions ++ s.deletableItems.map (fun i => i.Id))
      rw [mem_jsSetDedup, List.mem_append]
      exact Or.inr (List.mem_map_of_mem _ hi)
  · intro s h
    unfold handleExcludeAll
    rw [if_pos (by rw [h]; rfl)]

def sW : AppState := ⟨["a"], [movieItem "a" "A" "1"], ["a"], []⟩

def sEmptyPool : AppState := ⟨["z"], [], ["q"], []⟩

theorem C8_exclusion_idempotent_witness :
    ((movieItem "a" "A" "1").Id ∈ sW.exclusions ∧ sW.exclusions.Nodup
      ∧ (handleExcludeItem (movieItem "a" "A" "1") sW).exclusions = sW.exclusions)
    ∧ (handleExcludeAll sW).deletableItems = []
    ∧ (movieItem "a" "A" "1").Id ∈ (handleExcludeAll sW).exclusions
    ∧ (sEmptyPool.deletableItems = [] ∧ handleExcludeAll sEmptyPool = sEmptyPool) :=
  ⟨⟨by decide, by decide,
    (C8_exclusion_idempotent.1 sW (movieItem "a" "A" "1") (by decide)).2 (by decide)⟩,
   C8_exclusion_idempotent.2.1 sW,
   C8_exclusion_idempotent.2.2.1 sW (movieItem "a" "A" "1") (by decide),
   ⟨by decide, C8_exclusion_idempotent.2.2.2 sEmptyPool (by decide)⟩⟩

/-- Claim C6: a Season item that resolves to a series record but whose
fetched episode list has no matching has-file episode finishes as a
success — the success counter is incremented, the emitted outcome is the
informational nothing-to-delete message, and no file-deletion call is
issued. -/
theorem C6_empty_season_succeeds (env : DeleteEnv) (seriesL : List SonarrSeries)
    (parents : List JellyfinItem) (st : St) (item : JellyfinItem)
    (ss : SonarrSeries) (episodes : List SonarrEpisode) (ds : List Char)
    (hcfg : arrConfigured env.settings.sonarr = true)
    (hfal : falsyStr (seriesTvdbLookup parents item.SeriesId) = false)
    (hfind : seriesL.find? (fun s =>
      parseMatch ((seriesTvdbLookup parents item.SeriesId).getD "") s.tvdbId) = some ss)
    (heps : env.getSonarrEpisodes ss.id = .ok episodes)
    (hds : firstDigitRun item.Name.toList = some ds)
    (hempty : episodes.filter
      (fun e => e.seasonNumber == ((digitsVal ds : Nat) : Int) && e.hasFile) = []) :
    processSeason env seriesL parents st item =
      .ok (bumpSuccess (addLog st (.deletionInfoSonarrFiles item.SeriesName item.Name)))
    ∧ (stOf (processSeason env seriesL parents st item)).calls = st.calls
    ∧ (stOf (processSeason env seriesL parents st item)).successCount
        = st.successCount + 1
    ∧ (stOf (processSeason env seriesL parents st item)).logs
        = .deletionInfoSonarrFiles item.SeriesName item.Name :: st.logs := by
  have hmain : processSeason env seriesL parents st item =
      .ok (bumpSuccess (addLog st (.deletionInfoSonarrFiles item.SeriesName item.Name))) := by
    unfold processSeason
    simp only [hcfg, Bool.not_true, Bool.false_eq_true, if_false, hfal, hfind,
      heps, hds, hempty, List.isEmpty_nil, if_true]
  refine ⟨hmain, ?_, ?_, ?_⟩
  · rw [hmain]; rfl
  · rw [hmain]; rfl
  · rw [hmain]; rfl

theorem C6_empty_season_succeeds_witness :
    (arrConfigured envEmptySeason.settings.sonarr = true
      ∧ falsyStr (seriesTvdbLookup parentsX seasonItemX.SeriesId) = false
      ∧ envEmptySeason.getSonarrEpisodes (7 : Int) = .ok [⟨2, false, 5⟩]
      ∧ firstDigitRun seasonItemX.Name.toList = some ['2'])
    ∧ processSeason envEmptySeason seriesX parentsX ⟨[], 0, []⟩ seasonItemX =
        .ok (bumpSuccess (addLog ⟨[], 0, []⟩
          (.deletionInfoSonarrFiles seasonItemX.SeriesName seasonItemX.Name))) :=
  ⟨⟨by decide, by decide, rfl, by decide⟩,
   (C6_empty_season_succeeds envEmptySeason seriesX parentsX ⟨[], 0, []⟩ seasonItemX
      ⟨7, 99⟩ [⟨2, false, 5⟩] ['2'] (by decide) (by decide) (by decide) rfl
      (by decide) (by decide)).1⟩

/-- Environment where both episode-file deletions of `epsX` succeed. -/
def envSeasonOk : DeleteEnv :=
  { settings := { radarr := none, sonarr := some sonarrCfg },
    getRadarrMovies := [],
    getSonarrSeries := seriesX,
    getItemsByIds := fun _ => parentsX,
    deleteRadarrMovie := fun _ => .ok (),
    getSonarrEpisodes := fun _ => .ok epsX,
    deleteSonarrEpisodeFile := fun _ => .ok () }

/-- Claim C5 (amended): episode-file deletions of one Season are attempted
independently — every matched episode's deletion call is issued whatever
the earlier results — each failure is logged individually with its error
message; if all calls succeed the item finishes with the success outcome
and an incremented success counter, and if any call fails it finishes
with the season-failure outcome, which names the series and season but
does not carry the failure count. -/
theorem C5_episode_independence :
    (∀ (del : Int → Except String Unit) (sn : Option String) (n : String)
        (st : St) (eps : List SonarrEpisode),
      (processEpisodes del sn n st true eps).1.calls =
        st.calls ++ eps.map (fun e => DeleteCall.sonarrEpisodeFile e.episodeFileId))
    ∧ (∀ (del : Int → Except String Unit) (sn : Option String) (n : String)
        (st : St) (eps : List SonarrEpisode),
      (processEpisodes del sn n st true eps).2 =
        eps.all (fun e => isOkE (del e.episodeFileId)))
    ∧ (∀ (del : Int → Except String Unit) (sn : Option String) (n : String)
        (st : St) (eps : List SonarrEpisode),
      (processEpisodes del sn n st true eps).1.logs =
        (chronoEpisodes del sn n eps).reverse ++ st.logs)
    ∧ (∀ (env : DeleteEnv) (seriesL : List SonarrSeries)
        (parents : List JellyfinItem) (st : St) (item : JellyfinItem)
        (ss : SonarrSeries) (episodes : List SonarrEpisode) (ds : List Char),
      arrConfigured env.settings.sonarr = true →
      falsyStr (seriesTvdbLookup parents item.SeriesId) = false →
      seriesL.find? (fun s =>
        parseMatch ((seriesTvdbLookup parents item.SeriesId).getD "") s.tvdbId) = some ss →
      env.getSonarrEpisodes ss.id = .ok episodes →
      firstDigitRun item.Name.toList = some ds →
      (episodes.filter
        (fun e => e.seasonNumber == ((digitsVal ds : Nat) : Int) && e.hasFile)).isEmpty = false →
      (episodes.filter
        (fun e => e.seasonNumber == ((digitsVal ds : Nat) : Int) && e.hasFile)).all
        (fun e => isOkE (env.deleteSonarrEpisodeFile e.episodeFileId)) = true →
      processSeason env seriesL parents st item =
        .ok (bumpSuccess (addLog
          (processEpisodes env.deleteSonarrEpisodeFile item.SeriesName item.Name st true
            (episodes.filter
              (fun e => e.seasonNumber == ((digitsVal ds : Nat) : Int) && e.hasFile))).1
          (.deletionSuccessSonarr
            (episodes.filter
              (fun e => e.seasonNumber == ((digitsVal ds : Nat) : Int) && e.hasFile)).length
            item.SeriesName item.Name))))
    ∧ (∀ (env : DeleteEnv) (seriesL : List SonarrSeries)
        (parents : List JellyfinItem) (st : St) (item : JellyfinItem)
        (ss : SonarrSeries) (episodes : List SonarrEpisode) (ds : List Char),
      arrConfigured env.settings.sonarr = true →
      falsyStr (seriesTvdbLookup parents item.SeriesId) = false →
      seriesL.find? (fun s =>
        parseMatch ((seriesTvdbLookup parents item.SeriesId).getD "") s.tvdbId) = some ss →
      env.getSonarrEpisodes ss.id = .ok episodes →
      firstDigitRun item.Name.toList = some ds →
      (episodes.filter
        (fun e => e.seasonNumber == ((digitsVal ds : Nat) : Int) && e.hasFile)).isEmpty = false →
      (episodes.filter
        (fun e => e.seasonNumber == ((digitsVal ds : Nat) : Int) && e.hasFile)).all
        (fun e => isOkE (env.deleteSonarrEpisodeFile e.episodeFileId)) = false →
      processSeason env seriesL parents st item =
        .ok (addLog
          (processEpisodes env.deleteSonarrEpisodeFile item.SeriesName item.Name st true
            (episodes.filter
              (fun e => e.seasonNumber == ((digitsVal ds : Nat) : Int) && e.hasFile))).1
          (.deletionFailedSonarrMulti item.SeriesName item.Name))) := by
  refine ⟨?_, ?_, ?_, ?_, ?_⟩
  · intro del sn n st eps
    exact processEpisodes_calls del sn n eps st true
  · intro del sn n st eps
    rw [processEpisodes_flag]
    exact Bool.true_and _
  · intro del sn n st eps
    exact processEpisodes_logs del sn n eps st true
  · intro env seriesL parents st item ss episodes ds hcfg hfal hfind heps hds hne hall
    unfold processSeason
    simp only [hcfg, Bool.not_true, Bool.false_eq_true, if_false, hfal, hfind,
      heps, hds, hne]
    rw [processEpisodes_flag]
    simp only [Bool.true_and, hall, if_true]
  · intro env seriesL parents st item ss episodes ds hcfg hfal hfind heps hds hne hall
    unfold processSeason
    simp only [hcfg, Bool.not_true, Bool.false_eq_true, if_false, hfal, hfind,
      heps, hds, hne]
    rw [processEpisodes_flag]
    simp only [Bool.true_and, hall, Bool.false_eq_true, if_false]

theorem C5_episode_independence_witness :
    (processEpisodes envFail1.deleteSonarrEpisodeFile (some "S") "Season 2"
        ⟨[], 0, []⟩ true epsX).1.calls =
      [DeleteCall.sonarrEpisodeFile 21, DeleteCall.sonarrEpisodeFile 22]
    ∧ processSeason envSeasonOk seriesX parentsX ⟨[], 0, []⟩ seasonItemX =
        .ok (bumpSuccess (addLog
          (processEpisodes envSeasonOk.deleteSonarrEpisodeFile seasonItemX.SeriesName
            seasonItemX.Name ⟨[], 0, []⟩ true
            (epsX.filter
              (fun e => e.seasonNumber == ((digitsVal ['2'] : Nat) : Int) && e.hasFile))).1
          (.deletionSuccessSonarr
            (epsX.filter
              (fun e => e.seasonNumber == ((digitsVal ['2'] : Nat) : Int) && e.hasFile)).length
            seasonItemX.SeriesName seasonItemX.Name)))
    ∧ processSeason envFail1 seriesX parentsX ⟨[], 0, []⟩ seasonItemX =
        .ok (addLog
          (processEpisodes envFail1.deleteSonarrEpisodeFile seasonItemX.SeriesName
            seasonItemX.Name ⟨[], 0, []⟩ true
            (epsX.filter
              (fun e => e.seasonNumber == ((digitsVal ['2'] : Nat) : Int) && e.hasFile))).1
          (.deletionFailedSonarrMulti seasonItemX.SeriesName seasonItemX.Name)) :=
  ⟨C5_episode_independence.1 envFail1.deleteSonarrEpisodeFile (some "S") "Season 2"
     ⟨[], 0, []⟩ epsX,
   C5_episode_independence.2.2.2.1 envSeasonOk seriesX parentsX ⟨[], 0, []⟩ seasonItemX
     ⟨7, 99⟩ epsX ['2'] (by decide) (by decide) (by decide) rfl (by decide)
     (by decide) (by decide),
   C5_episode_independence.2.2.2.2 envFail1 seriesX parentsX ⟨[], 0, []⟩ seasonItemX
     ⟨7, 99⟩ epsX ['2'] (by decide) (by decide) (by decide) rfl (by decide)
     (by decide) (by decide)⟩

/-- Claim C5 counterexample: two season runs over the same two matched
episodes — one where a single episode-file deletion fails and one where
both fail — end with the IDENTICAL season-failure outcome message, while
their per-episode failure counts differ (1 vs 2): the count of failures is
not included in the outcome's detail. -/
theorem C5_counterexample :
    (stOf (processSeason envFail1 seriesX parentsX ⟨[], 0, []⟩ seasonItemX)).logs.head? =
      some (LogMsg.deletionFailedSonarrMulti (some "S") "Season 2")
    ∧ (stOf (processSeason envFail2 seriesX parentsX ⟨[], 0, []⟩ seasonItemX)).logs.head? =
      some (LogMsg.deletionFailedSonarrMulti (some "S") "Season 2")
    ∧ ((stOf (processSeason envFail1 seriesX parentsX ⟨[], 0, []⟩ seasonItemX)).logs.filter
        isFailedEpisodeLog).length = 1
    ∧ ((stOf (processSeason envFail2 seriesX parentsX ⟨[], 0, []⟩ seasonItemX)).logs.filter
        isFailedEpisodeLog).length = 2 :=
  ⟨rfl, rfl, rfl, rfl⟩

/-- Claim C4 counterexample: under policy {movie 7, season 28} the Movie
entry created ten days ago with external id "tt1" IS eligible, but the
source matches records by `radarrMovie.tmdbId === parseInt(tmdb)` and
`parseInt("tt1")` is NaN, which compares unequal to every record id: the
run issues NO delete call, the item ends as the informational no-match
outcome, and no Succeeded outcome is produced. -/
theorem C4_counterexample :
    evaluate [itemC4] [] (movieRetentionDays none) (tvSeasonRetentionDays none) tenDaysMs
      = [itemC4]
    ∧ (runDelete envC4 ⟨[LogMsg.deletionStarted 1], 0, []⟩ [itemC4]).calls = []
    ∧ LogMsg.deletionSuccessRadarr "A" ∉
        (runDelete envC4 ⟨[LogMsg.deletionStarted 1], 0, []⟩ [itemC4]).logs
    ∧ (runDelete envC4 ⟨[LogMsg.deletionStarted 1], 0, []⟩ [itemC4]).logs =
        [LogMsg.deletionComplete 0 1, LogMsg.deletionInfoRadarr "A",
         LogMsg.deletionStarted 1]
    ∧ jsParseInt "tt1" = none := by
  refine ⟨?_, rfl, by decide, rfl, rfl⟩
  simp [evaluate, List.filter, itemFilter, itemC4, ageInDays_tenDays,
    movieRetentionDays, tvSeasonRetentionDays, jsOrDefault,
    show (10 : ℚ) > 7 by norm_num]

/-- Claim C4 (amended): the scenario holds once the external id is a
numeric movie-database id — under policy {movie 7, season 28} the Movie
entry created ten days ago with external id "101", against the fetched
record {id 5, tmdbId 101}, is eligible, resolves to that record, causes
exactly one delete-movie call (for internal id 5), and yields the
Succeeded outcome with the success counter at 1. -/
theorem C4_scenario_numeric_id :
    evaluate [itemC4b] [] (movieRetentionDays none) (tvSeasonRetentionDays none) tenDaysMs
      = [itemC4b]
    ∧ (runDelete envC4b ⟨[LogMsg.deletionStarted 1], 0, []⟩ [itemC4b]).calls =
        [DeleteCall.radarr 5]
    ∧ (runDelete envC4b ⟨[LogMsg.deletionStarted 1], 0, []⟩ [itemC4b]).logs =
        [LogMsg.deletionComplete 1 1, LogMsg.deletionSuccessRadarr "A2",
         LogMsg.deletionStarted 1] := by
  refine ⟨?_, rfl, rfl⟩
  simp [evaluate, List.filter, itemFilter, itemC4b, ageInDays_tenDays,
    movieRetentionDays, tvSeasonRetentionDays, jsOrDefault,
    show (10 : ℚ) > 7 by norm_num]

/-- Claim C1 counterexample: in the three-movie batch whose second item's
delete call throws, the run emits exactly ONE per-item outcome (item 1's
success), not three — the throw escapes the per-item loop, item 2 gets no
Failed outcome and item 3 is never processed. -/
theorem C1_counterexample :
    ((runDelete envC1 ⟨[LogMsg.deletionStarted 3], 0, []⟩ itemsC1).logs.filter
      isItemOutcome).length = 1
    ∧ LogMsg.deletionSuccessRadarr "M3" ∉
        (runDelete envC1 ⟨[LogMsg.deletionStarted 3], 0, []⟩ itemsC1).logs
    ∧ LogMsg.deletionSuccessRadarr "M2" ∉
        (runDelete envC1 ⟨[LogMsg.deletionStarted 3], 0, []⟩ itemsC1).logs :=
  ⟨rfl, by decide, by decide⟩

/-- Claim C1 (amended): only a Season's episode-file deletions are caught
at a per-episode boundary (a Season item never aborts the run when the
episode-list fetch succeeds); an error thrown by a Movie's delete call
escapes to the single run-level handler — the run logs the error once,
logs completion, and processes none of the remaining items.  For the
three-movie batch with item 2's delete throwing, the log holds item 1's
success, the run-level error, and the completion marker, with both issued
calls recorded. -/
theorem C1_item_error_containment :
    ((runDelete envC1 ⟨[LogMsg.deletionStarted 3], 0, []⟩ itemsC1).logs =
      [LogMsg.deletionComplete 1 3, LogMsg.logErr "boom",
       LogMsg.deletionSuccessRadarr "M1", LogMsg.deletionStarted 3]
    ∧ (runDelete envC1 ⟨[LogMsg.deletionStarted 3], 0, []⟩ itemsC1).calls =
      [DeleteCall.radarr 11, DeleteCall.radarr 12])
    ∧ (∀ (env : DeleteEnv) (movies : List RadarrMovie) (seriesL : List SonarrSeries)
        (parents : List JellyfinItem) (items : List JellyfinItem) (st : St)
        (p : St × String),
        runLoop env movies seriesL parents st items = .error p →
        ∀ more, runLoop env movies seriesL parents st (items ++ more) = .error p)
    ∧ (∀ (env : DeleteEnv) (seriesL : List SonarrSeries)
        (parents : List JellyfinItem) (st : St) (item : JellyfinItem),
        (∀ i, isOkE (env.getSonarrEpisodes i) = true) →
        isOkE (processSeason env seriesL parents st item) = true) := by
  refine ⟨⟨rfl, rfl⟩, ?_, ?_⟩
  · intro env movies seriesL parents items st p h more
    exact runLoop_error_stops env movies seriesL parents items st p h more
  · intro env seriesL parents st item h
    exact processSeason_no_throw env seriesL parents st item h

theorem C1_item_error_containment_witness :
    runLoop envC1 [⟨11, 1⟩, ⟨12, 2⟩, ⟨13, 3⟩] [] []
        ⟨[LogMsg.deletionStarted 3], 0, []⟩ (itemsC1 ++ [movieItem "m4" "M4" "4"]) =
      .error (⟨[LogMsg.deletionSuccessRadarr "M1", LogMsg.deletionStarted 3], 1,
        [DeleteCall.radarr 11, DeleteCall.radarr 12]⟩, "boom")
    ∧ isOkE (processSeason envSeasonOk seriesX parentsX ⟨[], 0, []⟩ seasonItemX) = true :=
  ⟨C1_item_error_containment.2.1 envC1 [⟨11, 1⟩, ⟨12, 2⟩, ⟨13, 3⟩] [] []
     itemsC1 ⟨[LogMsg.deletionStarted 3], 0, []⟩
     (⟨[LogMsg.deletionSuccessRadarr "M1", LogMsg.deletionStarted 3], 1,
       [DeleteCall.radarr 11, DeleteCall.radarr 12]⟩, "boom") rfl
     [movieItem "m4" "M4" "4"],
   C1_item_error_containment.2.2 envSeasonOk seriesX parentsX ⟨[], 0, []⟩ seasonItemX
     (fun _ => rfl)⟩

/-- Claim C7 counterexample: in a two-movie run where both items succeed,
the stored log does NOT contain the two success outcomes in processing
order — it contains them in reverse order, because `addLog` prepends. -/
theorem C7_counterexample :
    ¬ List.Sublist [LogMsg.deletionSuccessRadarr "M1", LogMsg.deletionSuccessRadarr "M2"]
        (runDelete envC7 ⟨[LogMsg.deletionStarted 2], 0, []⟩ itemsC7).logs
    ∧ List.Sublist [LogMsg.deletionSuccessRadarr "M2", LogMsg.deletionSuccessRadarr "M1"]
        (runDelete envC7 ⟨[LogMsg.deletionStarted 2], 0, []⟩ itemsC7).logs
    ∧ (runDelete envC7 ⟨[LogMsg.deletionStarted 2], 0, []⟩ itemsC7).logs =
        [LogMsg.deletionComplete 2 2, LogMsg.deletionSuccessRadarr "M2",
         LogMsg.deletionSuccessRadarr "M1", LogMsg.deletionStarted 2] :=
  ⟨by decide, by decide, rfl⟩

/-- Claim C7 (amended): every outcome is recorded in the log, but `addLog`
PREPENDS: the log list held after the per-item loop is exactly the
reverse of the chronological emission sequence on top of the initial log,
so earlier-processed items appear AFTER later-processed ones; and a run
only adds entries in front of the existing log (the prior log is always a
suffix afterwards). -/
theorem C7_log_reverse_order :
    (∀ (env : DeleteEnv) (movies : List RadarrMovie) (seriesL : List SonarrSeries)
        (parents : List JellyfinItem) (items : List JellyfinItem) (st : St),
      (stOf (runLoop env movies seriesL parents st items)).logs =
        (chronoLoop env movies seriesL parents items).reverse ++ st.logs)
    ∧ (∀ (env : DeleteEnv) (st0 : St) (items : List JellyfinItem),
      List.IsSuffix st0.logs (runDelete env st0 items).logs) := by
  constructor
  · intro env movies seriesL parents items st
    exact runLoop_chrono env movies seriesL parents items st
  · intro env st0 items
    have h := runLoop_chrono env (prefetchMovies env) (prefetchSeriesL env)
      (prefetchParents env items) items st0
    unfold runDelete
    cases hr : runLoop env (prefetchMovies env) (prefetchSeriesL env)
        (prefetchParents env items) st0 items with
    | ok st =>
      rw [hr] at h
      simp only [stOf] at h
      refine ⟨LogMsg.deletionComplete st.successCount items.length ::
        (chronoLoop env (prefetchMovies env) (prefetchSeriesL env)
          (prefetchParents env items) items).reverse, ?_⟩
      simp [addLog, h]
    | error p =>
      obtain ⟨st, e⟩ := p
      rw [hr] at h
      simp only [stOf] at h
      refine ⟨LogMsg.deletionComplete st.successCount items.length :: LogMsg.logErr e ::
        (chronoLoop env (prefetchMovies env) (prefetchSeriesL env)
          (prefetchParents env items) items).reverse, ?_⟩
      simp [addLog, h]
